import Mathlib

/-
Verification of the options-selection and yield-ranking pipeline of
app.py (function fetch_options_data, lines 24-205).

Embedding conventions:
* Python float arithmetic is modelled by exact real arithmetic (ℝ);
  time_factor ** 0.5 is Real.sqrt.
* The quote provider (yfinance) is modelled by a Provider record holding
  the data the code reads: the closing price (none = empty history after
  all retries), and the expiration list (none = stock.options raised).
* Each expiration entry carries the parse result of its date string as a
  whole-day offset from today (none = strptime raised, record skipped by
  the surrounding try/except), and the chain fetch result (none = the
  option_chain call raised).  "today" is taken at midnight, so the
  exp_date > today + 90 days guard is d > 90 and days_to_exp = d.
* A raw contract row is modelled by the fields the code reads; a field
  whose float()/int() conversion raises is modelled as none for strike
  (the per-record try/except then skips the whole record).  The row may
  also expose a provider delta; the code never reads it, the field is
  kept in the model so that this can be stated.
* The (data, error) return pair is an Except: .ok is the rendered data
  dict, .error the error string; error strings are modelled by an
  inductive carrying exactly the values interpolated into the f-string.
  The 'expiration' (formatted date string) and 'timestamp' presentation
  fields are not modelled; 'days' carries the expiration information.
* Python's list.sort(key=..., reverse=True) is a stable descending sort;
  it is modelled by stable insertion sort on the annual_return key.
-/

noncomputable section

namespace OptionsApp

/-- One raw option row as read by the code: strike (none = float(row['strike'])
raises, the record is malformed and skipped), optional bid/ask (missing → 0),
optional provider delta (never read by the code), optional volume/openInterest. -/
structure RawRecord where
  strike : Option ℝ
  bid : Option ℝ
  ask : Option ℝ
  delta : Option ℝ
  volume : Option ℤ
  openInterest : Option ℤ

/-- The two row lists of one expiration's option chain. -/
structure ChainData where
  calls : List RawRecord
  puts : List RawRecord

/-- One entry of stock.options: days = parsed expiration date as day offset
from today (none = unparseable date string), chain = result of
stock.option_chain (none = the fetch raised). -/
structure ExpEntry where
  days : Option ℤ
  chain : Option ChainData

/-- The provider data a single request observes: price (none = empty price
history on every retry), expirations (none = stock.options raised on every
retry). -/
structure Provider where
  price : Option ℝ
  expirations : Option (List ExpEntry)

/-- One entry of the all_options result list (lines 125-137 / 168-180). -/
structure Contract where
  type : String
  strike : ℝ
  days : ℤ
  premium : ℝ
  bid : ℝ
  ask : ℝ
  delta : ℝ
  annualReturn : ℝ
  volume : ℤ
  oi : ℤ

/-- The success dict returned at lines 197-205 ('expiration'/'timestamp'
presentation strings omitted). -/
structure SelectionResult where
  symbol : String
  price : ℝ
  options : List Contract
  maxDeltaCalls : ℝ
  maxDeltaPuts : ℝ
  filterType : String

/-- The error strings returned by fetch_options_data, as tags carrying the
interpolated values: line 45 (no price data), line 60 (stock.options raised),
line 63 (empty expiration list), line 195 (empty post-filter set, message
carries both active delta thresholds). -/
inductive FailureReason where
  | noPriceData (ticker : String)
  | optionsFetchError (ticker : String)
  | noOptionsListed (ticker : String)
  | noMatchingContracts (ticker : String) (maxDeltaCalls maxDeltaPuts : ℝ)

/-- Delta estimation formula inlined at lines 116-118 (and 159-161):
moneyness = abs((strike - price) / price), time_factor = days_to_exp / 365,
delta = min(0.5, 1.0 / (1.0 + moneyness * 10 / time_factor ** 0.5)). -/
def estimate_delta (strike price : ℝ) (daysToExp : ℤ) : ℝ :=
  min 0.5 (1 / (1 + |(strike - price) / price| * 10 / Real.sqrt ((daysToExp : ℝ) / 365)))

/-- Processing of one call row (lines 104-139): skip if malformed strike,
skip unless strike > price, premium = (bid+ask)/2 with missing treated as 0,
skip if premium < 0.05, skip if estimated delta exceeds max_delta_calls,
otherwise emit the contract record. -/
def processCall (price : ℝ) (daysToExp : ℤ) (maxDeltaCalls : ℝ) (r : RawRecord) : Option Contract :=
  r.strike.bind fun strike =>
    if strike ≤ price then none
    else if (r.bid.getD 0 + r.ask.getD 0) / 2 < 0.05 then none
    else if estimate_delta strike price daysToExp > maxDeltaCalls then none
    else some {
      type := "Call"
      strike := strike
      days := daysToExp
      premium := (r.bid.getD 0 + r.ask.getD 0) / 2
      bid := r.bid.getD 0
      ask := r.ask.getD 0
      delta := estimate_delta strike price daysToExp
      annualReturn := (r.bid.getD 0 + r.ask.getD 0) / 2 / price * (365 / (daysToExp : ℝ)) * 100
      volume := r.volume.getD 0
      oi := r.openInterest.getD 0 }

/-- Processing of one put row (lines 147-182): identical to processCall
except that the moneyness test is strike >= price → skip and the ceiling is
max_delta_puts. -/
def processPut (price : ℝ) (daysToExp : ℤ) (maxDeltaPuts : ℝ) (r : RawRecord) : Option Contract :=
  r.strike.bind fun strike =>
    if strike ≥ price then none
    else if (r.bid.getD 0 + r.ask.getD 0) / 2 < 0.05 then none
    else if estimate_delta strike price daysToExp > maxDeltaPuts then none
    else some {
      type := "Put"
      strike := strike
      days := daysToExp
      premium := (r.bid.getD 0 + r.ask.getD 0) / 2
      bid := r.bid.getD 0
      ask := r.ask.getD 0
      delta := estimate_delta strike price daysToExp
      annualReturn := (r.bid.getD 0 + r.ask.getD 0) / 2 / price * (365 / (daysToExp : ℝ)) * 100
      volume := r.volume.getD 0
      oi := r.openInterest.getD 0 }

/-- Processing of one expiration entry (lines 81-188): skip on unparseable
date, skip if the date is past today + 90 days, skip if the chain fetch
raised, skip if days_to_exp <= 0, then process the calls block when
filter_type in ['both','calls'] followed by the puts block when
filter_type in ['both','puts']. -/
def processEntry (price maxDeltaCalls maxDeltaPuts : ℝ) (filterType : String)
    (e : ExpEntry) : List Contract :=
  match e.days with
  | none => []
  | some d =>
    if d > 90 then []
    else
      match e.chain with
      | none => []
      | some ch =>
        if d ≤ 0 then []
        else
          (if filterType = "both" ∨ filterType = "calls"
            then ch.calls.filterMap (processCall price d maxDeltaCalls) else [])
          ++ (if filterType = "both" ∨ filterType = "puts"
            then ch.puts.filterMap (processPut price d maxDeltaPuts) else [])

/-- The all_options list accumulated over the first 15 expirations
(expirations[:15], line 80). -/
def allOptions (price maxDeltaCalls maxDeltaPuts : ℝ) (filterType : String)
    (es : List ExpEntry) : List Contract :=
  (es.take 15).flatMap (processEntry price maxDeltaCalls maxDeltaPuts filterType)

/-- Stable descending insertion on the annual_return key: the new element
goes in front of the first element whose key is less than or equal to its
own, so an element earlier in the input stays in front of equal-key
elements later in the input. -/
def insertDesc (c : Contract) : List Contract → List Contract
  | [] => [c]
  | x :: l => if x.annualReturn ≤ c.annualReturn then c :: x :: l else x :: insertDesc c l

/-- Stable descending sort on annual_return, modelling
all_options.sort(key=lambda x: x['annual_return'], reverse=True) at
line 190 (Python's sort is stable, also with reverse=True). -/
def sortDesc : List Contract → List Contract
  | [] => []
  | x :: l => insertDesc x (sortDesc l)

/-- The pipeline fetch_options_data (lines 24-205).  With a fixed provider
response the 3-attempt retry loop is equivalent to a single inspection of
the response.  Order of checks as in the source: empty history → line 45
error; stock.options raised → line 60 error; empty expiration list →
line 63 error; otherwise filter the first 15 expirations, sort by
annual_return descending, and if the sorted list is empty return the
line 195 error (carrying both delta thresholds), else the result dict
with the list truncated to 30 entries. -/
def fetch_options_data (p : Provider) (ticker : String)
    (maxDeltaCalls maxDeltaPuts : ℝ) (filterType : String) :
    Except FailureReason SelectionResult :=
  match p.price with
  | none => .error (.noPriceData ticker)
  | some price =>
    match p.expirations with
    | none => .error (.optionsFetchError ticker)
    | some es =>
      match es with
      | [] => .error (.noOptionsListed ticker)
      | _ :: _ =>
        match sortDesc (allOptions price maxDeltaCalls maxDeltaPuts filterType es) with
        | [] => .error (.noMatchingContracts ticker maxDeltaCalls maxDeltaPuts)
        | c :: rest => .ok {
            symbol := ticker
            price := price
            options := (c :: rest).take 30
            maxDeltaCalls := maxDeltaCalls
            maxDeltaPuts := maxDeltaPuts
            filterType := filterType }

/-- Provider call sites, for stating cache behaviour. -/
inductive FetchEvent where
  | history
  | expirations
  | chain
deriving DecidableEq

/-- Chain-fetch events of one request: stock.option_chain is called (line 88)
for each of the first 15 expirations whose date parses and is not past the
90-day limit, regardless of the later filters. -/
def chainEvents (es : List ExpEntry) : List FetchEvent :=
  (es.take 15).flatMap fun e =>
    match e.days with
    | none => []
    | some d => if d > 90 then [] else [.chain]

/-- Provider calls performed by one invocation of fetch_options_data: every
attempt of the retry loop fetches the price history (line 38); when the
history is empty all 3 attempts run; when stock.options raises (line 53),
each of the 3 attempts fetches history and expirations; on success one
history fetch and one expirations fetch are followed by the chain fetches.
The function has no cache of any kind: the trace depends only on the
provider response, never on earlier requests. -/
def fetchTrace (p : Provider) : List FetchEvent :=
  match p.price with
  | none => [.history, .history, .history]
  | some _ =>
    match p.expirations with
    | none => [.history, .expirations, .history, .expirations, .history, .expirations]
    | some es => [.history, .expirations] ++ chainEvents es

/-! Section: Sorting lemmas -/

theorem mem_insertDesc {a c : Contract} {l : List Contract} :
    a ∈ insertDesc c l ↔ a = c ∨ a ∈ l := by
  induction l with
  | nil => simp [insertDesc]
  | cons x t ih =>
    by_cases h : x.annualReturn ≤ c.annualReturn
    · simp [insertDesc, h]
    · simp [insertDesc, h, ih]
      tauto

theorem mem_sortDesc {a : Contract} {l : List Contract} :
    a ∈ sortDesc l ↔ a ∈ l := by
  induction l with
  | nil => simp [sortDesc]
  | cons x t ih => simp [sortDesc, mem_insertDesc, ih]

theorem sortedDesc_insertDesc {c : Contract} {l : List Contract}
    (hl : l.Pairwise (fun a b => b.annualReturn ≤ a.annualReturn)) :
    (insertDesc c l).Pairwise (fun a b => b.annualReturn ≤ a.annualReturn) := by
  induction l with
  | nil => simp [insertDesc]
  | cons x t ih =>
    rcases List.pairwise_cons.mp hl with ⟨hx, ht⟩
    by_cases h : x.annualReturn ≤ c.annualReturn
    · rw [insertDesc, if_pos h]
      refine List.pairwise_cons.mpr ⟨?_, hl⟩
      intro b hb
      rcases List.mem_cons.mp hb with rfl | hb
      · exact h
      · exact le_trans (hx b hb) h
    · rw [insertDesc, if_neg h]
      refine List.pairwise_cons.mpr ⟨?_, ih ht⟩
      intro b hb
      rcases mem_insertDesc.mp hb with rfl | hb
      · exact le_of_lt (not_le.mp h)
      · exact hx b hb

theorem sortedDesc_sortDesc (l : List Contract) :
    (sortDesc l).Pairwise (fun a b => b.annualReturn ≤ a.annualReturn) := by
  induction l with
  | nil => simp [sortDesc]
  | cons x t ih => exact sortedDesc_insertDesc ih

theorem filter_insertDesc (c : Contract) (l : List Contract) (v : ℝ) :
    (insertDesc c l).filter (fun x => decide (x.annualReturn = v)) =
      if c.annualReturn = v
        then c :: l.filter (fun x => decide (x.annualReturn = v))
        else l.filter (fun x => decide (x.annualReturn = v)) := by
  induction l with
  | nil => by_cases hc : c.annualReturn = v <;> simp [insertDesc, hc]
  | cons x t ih =>
    simp only [insertDesc]
    by_cases h : x.annualReturn ≤ c.annualReturn
    · rw [if_pos h]
      by_cases hc : c.annualReturn = v
      · by_cases hx : x.annualReturn = v <;> simp [List.filter_cons, hc, hx]
      · by_cases hx : x.annualReturn = v <;> simp [List.filter_cons, hc, hx]
    · rw [if_neg h]
      by_cases hc : c.annualReturn = v
      · have hx : ¬ x.annualReturn = v := fun hx => h (le_of_eq (hx.trans hc.symm))
        simp [List.filter_cons, hx, ih, hc]
      · by_cases hx : x.annualReturn = v <;> simp [List.filter_cons, hx, ih, hc]

/-- The stable sort leaves the elements of any fixed annual_return class in
their original relative order. -/
theorem filter_sortDesc (l : List Contract) (v : ℝ) :
    (sortDesc l).filter (fun x => decide (x.annualReturn = v)) =
      l.filter (fun x => decide (x.annualReturn = v)) := by
  induction l with
  | nil => rfl
  | cons x t ih =>
    rw [sortDesc, filter_insertDesc, ih, List.filter_cons]
    by_cases hx : x.annualReturn = v <;> simp [hx]

theorem filter_take_eq_take_filter {α : Type _} (p : α → Bool) :
    ∀ (l : List α) (n : ℕ), ∃ k, (l.take n).filter p = (l.filter p).take k := by
  intro l
  induction l with
  | nil => intro n; exact ⟨0, by simp⟩
  | cons x t ih =>
    intro n
    cases n with
    | zero => exact ⟨0, by simp⟩
    | succ n =>
      rcases ih n with ⟨k, hk⟩
      by_cases hx : p x
      · exact ⟨k + 1, by simp [List.take, List.filter_cons, hx, hk]⟩
      · exact ⟨k, by simp [List.take, List.filter_cons, hx, hk]⟩

/-! Section: Inversion lemmas for the record processors and the pipeline -/

theorem processCall_eq_some {price : ℝ} {d : ℤ} {mx : ℝ} {r : RawRecord} {c : Contract}
    (h : processCall price d mx r = some c) :
    c.type = "Call" ∧ r.strike = some c.strike ∧ price < c.strike ∧ c.days = d ∧
    c.bid = r.bid.getD 0 ∧ c.ask = r.ask.getD 0 ∧
    c.premium = (c.bid + c.ask) / 2 ∧ ¬ c.premium < 0.05 ∧
    c.delta = estimate_delta c.strike price d ∧ ¬ c.delta > mx ∧
    c.annualReturn = c.premium / price * (365 / (d : ℝ)) * 100 := by
  rcases Option.bind_eq_some.mp h with ⟨s, hs, hf⟩
  split_ifs at hf with h1 h2 h3
  rcases Option.some.inj hf with rfl
  exact ⟨rfl, hs, not_le.mp h1, rfl, rfl, rfl, rfl, h2, rfl, h3, rfl⟩

theorem processPut_eq_some {price : ℝ} {d : ℤ} {mx : ℝ} {r : RawRecord} {c : Contract}
    (h : processPut price d mx r = some c) :
    c.type = "Put" ∧ r.strike = some c.strike ∧ c.strike < price ∧ c.days = d ∧
    c.bid = r.bid.getD 0 ∧ c.ask = r.ask.getD 0 ∧
    c.premium = (c.bid + c.ask) / 2 ∧ ¬ c.premium < 0.05 ∧
    c.delta = estimate_delta c.strike price d ∧ ¬ c.delta > mx ∧
    c.annualReturn = c.premium / price * (365 / (d : ℝ)) * 100 := by
  rcases Option.bind_eq_some.mp h with ⟨s, hs, hf⟩
  split_ifs at hf with h1 h2 h3
  rcases Option.some.inj hf with rfl
  exact ⟨rfl, hs, not_le.mp h1, rfl, rfl, rfl, rfl, h2, rfl, h3, rfl⟩

/-- Everything that membership in the accumulated all_options list implies
about a contract record. -/
theorem mem_allOptions {price mdc mdp : ℝ} {ft : String} {es : List ExpEntry}
    {c : Contract} (h : c ∈ allOptions price mdc mdp ft es) :
    (c.type = "Call" ∨ c.type = "Put") ∧
    (c.type = "Call" → price < c.strike) ∧
    (c.type = "Put" → c.strike < price) ∧
    0 < c.days ∧ c.days ≤ 90 ∧
    c.premium = (c.bid + c.ask) / 2 ∧ ¬ c.premium < 0.05 ∧
    c.delta = estimate_delta c.strike price c.days ∧
    (c.type = "Call" → ¬ c.delta > mdc) ∧
    (c.type = "Put" → ¬ c.delta > mdp) ∧
    c.annualReturn = c.premium / price * (365 / (c.days : ℝ)) * 100 := by
  rcases List.mem_flatMap.mp h with ⟨e, _, hc⟩
  rcases e with ⟨od, och⟩
  rcases od with _ | d
  · exact absurd hc (by simp [processEntry])
  · rw [processEntry] at hc
    dsimp only at hc
    by_cases h90 : d > 90
    · rw [if_pos h90] at hc
      exact absurd hc (by simp)
    · rw [if_neg h90] at hc
      rcases och with _ | ch
      · exact absurd hc (by simp)
      · dsimp only at hc
        by_cases h0 : d ≤ 0
        · rw [if_pos h0] at hc
          exact absurd hc (by simp)
        · rw [if_neg h0] at hc
          have hCallPut :
              (∃ r ∈ ch.calls, processCall price d mdc r = some c) ∨
              (∃ r ∈ ch.puts, processPut price d mdp r = some c) := by
            rcases List.mem_append.mp hc with hl | hr
            · left
              rcases (by split at hl <;> simp_all :
                c ∈ ch.calls.filterMap (processCall price d mdc)) with hl'
              exact List.mem_filterMap.mp hl'
            · right
              rcases (by split at hr <;> simp_all :
                c ∈ ch.puts.filterMap (processPut price d mdp)) with hr'
              exact List.mem_filterMap.mp hr'
          rcases hCallPut with ⟨r, _, hr⟩ | ⟨r, _, hr⟩
          · obtain ⟨ht, _, hstk, hd, hb, ha, hp, hp05, hδ, hδmx, har⟩ :=
              processCall_eq_some hr
            subst hd
            refine ⟨Or.inl ht, fun _ => hstk, fun hput => ?_, not_le.mp h0, not_lt.mp h90,
              hp, hp05, hδ, fun _ => hδmx, fun hput => ?_, har⟩
            · rw [ht] at hput; exact absurd hput (by decide)
            · rw [ht] at hput; exact absurd hput (by decide)
          · obtain ⟨ht, _, hstk, hd, hb, ha, hp, hp05, hδ, hδmx, har⟩ :=
              processPut_eq_some hr
            subst hd
            refine ⟨Or.inr ht, fun hcall => ?_, fun _ => hstk, not_le.mp h0, not_lt.mp h90,
              hp, hp05, hδ, fun hcall => ?_, fun _ => hδmx, har⟩
            · rw [ht] at hcall; exact absurd hcall (by decide)
            · rw [ht] at hcall; exact absurd hcall (by decide)

/-- Inversion of a successful pipeline run: the provider had a price and a
nonempty expiration list, and the result is the sorted, truncated
all_options list for that data. -/
theorem run_eq_ok {p : Provider} {ticker : String} {mdc mdp : ℝ} {ft : String}
    {res : SelectionResult}
    (h : fetch_options_data p ticker mdc mdp ft = .ok res) :
    ∃ price es, p.price = some price ∧ p.expirations = some es ∧
      res.symbol = ticker ∧ res.price = price ∧
      res.options = (sortDesc (allOptions price mdc mdp ft es)).take 30 ∧
      res.maxDeltaCalls = mdc ∧ res.maxDeltaPuts = mdp ∧ res.filterType = ft := by
  rcases p with ⟨op, oes⟩
  rcases op with _ | price
  · exact absurd h (by simp [fetch_options_data])
  · rcases oes with _ | es
    · exact absurd h (by simp [fetch_options_data])
    · refine ⟨price, es, rfl, rfl, ?_⟩
      rcases es with _ | ⟨e, es'⟩
      · exact absurd h (by simp [fetch_options_data])
      · rw [fetch_options_data] at h
        dsimp only at h
        rcases hs : sortDesc (allOptions price mdc mdp ft (e :: es')) with _ | ⟨c, rest⟩
        · rw [hs] at h
          exact absurd h (by simp)
        · rw [hs] at h
          rcases Except.ok.inj h with rfl
          simp [hs]

/-! Section: Properties of the delta estimator -/

theorem sqrt_timeFactor_pos {d : ℤ} (hd : 0 < d) :
    0 < Real.sqrt ((d : ℝ) / 365) := by
  apply Real.sqrt_pos.mpr
  have : (0 : ℝ) < (d : ℝ) := by exact_mod_cast hd
  positivity

/-- C6: for strike > 0, spot > 0, days_to_expiration > 0, the estimate
min(0.5, 1/(1 + moneyness*10/sqrt(d/365))) with moneyness = |strike-spot|/spot
lies in (0, 0.5]; for fixed days it is non-increasing as |strike - spot|
increases; for fixed moneyness (same strike and spot) it is non-decreasing
as days_to_expiration increases. -/
theorem estimate_delta_range_and_monotone :
    (∀ (strike price : ℝ) (d : ℤ), 0 < strike → 0 < price → 0 < d →
      0 < estimate_delta strike price d ∧ estimate_delta strike price d ≤ 0.5) ∧
    (∀ (s₁ s₂ price : ℝ) (d : ℤ), 0 < price → 0 < d →
      |s₁ - price| ≤ |s₂ - price| →
      estimate_delta s₂ price d ≤ estimate_delta s₁ price d) ∧
    (∀ (strike price : ℝ) (d₁ d₂ : ℤ), 0 < price → 0 < d₁ → d₁ ≤ d₂ →
      estimate_delta strike price d₁ ≤ estimate_delta strike price d₂) := by
  refine ⟨?_, ?_, ?_⟩
  · intro s p d _ _ hd
    have hsq := sqrt_timeFactor_pos hd
    constructor
    · apply lt_min (by norm_num)
      positivity
    · exact min_le_left _ _
  · intro s₁ s₂ p d hp hd h
    have hsq := sqrt_timeFactor_pos hd
    have hm : |(s₁ - p) / p| ≤ |(s₂ - p) / p| := by
      rw [abs_div, abs_div]
      have hpp : 0 < |p| := abs_pos.mpr hp.ne'
      exact div_le_div_of_nonneg_right h hpp.le
    unfold estimate_delta
    apply min_le_min le_rfl
    gcongr
  · intro s p d₁ d₂ hp hd₁ hd₂
    have hsq₁ := sqrt_timeFactor_pos hd₁
    have hsq : Real.sqrt ((d₁ : ℝ) / 365) ≤ Real.sqrt ((d₂ : ℝ) / 365) := by
      apply Real.sqrt_le_sqrt
      have : (d₁ : ℝ) ≤ (d₂ : ℝ) := by exact_mod_cast hd₂
      linarith
    unfold estimate_delta
    apply min_le_min le_rfl
    gcongr

/-- C6 witness: the three conjuncts instantiated at spot 100 with strikes
105 and 110 and horizons 30 and 60 days. -/
theorem estimate_delta_range_and_monotone_witness :
    (0 < estimate_delta 105 100 30 ∧ estimate_delta 105 100 30 ≤ 0.5) ∧
    estimate_delta 110 100 30 ≤ estimate_delta 105 100 30 ∧
    estimate_delta 105 100 30 ≤ estimate_delta 105 100 60 := by
  refine ⟨?_, ?_, ?_⟩
  · exact estimate_delta_range_and_monotone.1 105 100 30
      (by norm_num) (by norm_num) (by norm_num)
  · apply estimate_delta_range_and_monotone.2.1 105 110 100 30
      (by norm_num) (by norm_num)
    rw [show (105 : ℝ) - 100 = 5 by norm_num, show (110 : ℝ) - 100 = 10 by norm_num]
    rw [abs_of_nonneg (by norm_num), abs_of_nonneg (by norm_num)]
    norm_num
  · exact estimate_delta_range_and_monotone.2.2 105 100 30 60
      (by norm_num) (by norm_num) (by norm_num)

/-! Section: A concrete provider scenario used by the witnesses: spot 100, one
expiration 30 days out, one call row with strike 105, bid 1.00, ask 1.20
(the end-to-end scenario of the spec). -/

def rcGood : RawRecord :=
  { strike := some 105, bid := some 1, ask := some 1.2,
    delta := none, volume := none, openInterest := none }

def entryGood : ExpEntry :=
  { days := some 30, chain := some { calls := [rcGood], puts := [] } }

def provGood : Provider :=
  { price := some 100, expirations := some [entryGood] }

/-- The contract record the pipeline builds from rcGood at spot 100,
30 days out. -/
def cGood : Contract :=
  { type := "Call", strike := 105, days := 30,
    premium := ((some (1 : ℝ)).getD 0 + (some (1.2 : ℝ)).getD 0) / 2,
    bid := (some (1 : ℝ)).getD 0, ask := (some (1.2 : ℝ)).getD 0,
    delta := estimate_delta 105 100 30,
    annualReturn := ((some (1 : ℝ)).getD 0 + (some (1.2 : ℝ)).getD 0) / 2 / 100
      * (365 / ((30 : ℤ) : ℝ)) * 100,
    volume := 0, oi := 0 }

def resGood : SelectionResult :=
  { symbol := "TEST", price := 100, options := [cGood],
    maxDeltaCalls := 0.5, maxDeltaPuts := 0.5, filterType := "both" }

theorem estimate_delta_le_half (strike price : ℝ) (d : ℤ) :
    ¬ estimate_delta strike price d > 0.5 :=
  not_lt.mpr (min_le_left _ _)

theorem processCall_rcGood :
    processCall 100 30 0.5 rcGood = some cGood := by
  rw [processCall, rcGood]
  simp only [Option.some_bind]
  rw [if_neg (by norm_num), if_neg (by norm_num),
    if_neg (estimate_delta_le_half 105 100 30)]
  rfl

theorem allOptions_provGood :
    allOptions 100 0.5 0.5 "both" [entryGood] = [cGood] := by
  rw [allOptions]
  simp only [List.take, List.flatMap_cons, List.flatMap_nil, List.append_nil]
  rw [entryGood, processEntry]
  dsimp only
  rw [if_neg (by norm_num), if_neg (by norm_num), if_pos (Or.inl rfl),
    if_pos (Or.inl rfl)]
  simp [List.filterMap, processCall_rcGood]

theorem run_provGood :
    fetch_options_data provGood "TEST" 0.5 0.5 "both" = .ok resGood := by
  rw [provGood, fetch_options_data]
  dsimp only
  rw [allOptions_provGood]
  rw [show sortDesc [cGood] = [cGood] from rfl]
  rfl

/-! Section: Claim theorems C3, C4, C5 -/

/-- C3: any successful result list has length at most 30, is sorted in
descending order of annual_return, equal annual_return classes keep their
pre-sort order (the truncated output filter is a prefix, i.e. a take, of the
all_options filter), and every listed contract's annual_return equals
(premium / spot) * (365 / days_to_expiration) * 100. -/
theorem rank_output_sorted_capped_stable (pr : ℝ) (es : List ExpEntry)
    (ticker : String) (mdc mdp : ℝ) (ft : String) (res : SelectionResult)
    (h : fetch_options_data ⟨some pr, some es⟩ ticker mdc mdp ft = .ok res) :
    res.options.length ≤ 30 ∧
    res.options.Pairwise (fun a b => b.annualReturn ≤ a.annualReturn) ∧
    (∀ v : ℝ, ∃ k, res.options.filter (fun c => decide (c.annualReturn = v)) =
      ((allOptions pr mdc mdp ft es).filter (fun c => decide (c.annualReturn = v))).take k) ∧
    ∀ c ∈ res.options, c.annualReturn = c.premium / res.price * (365 / (c.days : ℝ)) * 100 := by
  obtain ⟨price, es', hp, hes, _, hprice, hopts, _, _, _⟩ := run_eq_ok h
  rcases Option.some.inj hp with rfl
  rcases Option.some.inj hes with rfl
  refine ⟨?_, ?_, ?_, ?_⟩
  · rw [hopts]; exact List.length_take_le _ _
  · rw [hopts]
    exact List.Pairwise.sublist (List.take_sublist _ _) (sortedDesc_sortDesc _)
  · intro v
    obtain ⟨k, hk⟩ := filter_take_eq_take_filter
      (fun c => decide (c.annualReturn = v)) (sortDesc (allOptions pr mdc mdp ft es)) 30
    exact ⟨k, by rw [hopts, hk, filter_sortDesc]⟩
  · intro c hc
    rw [hopts] at hc
    have hmem : c ∈ allOptions pr mdc mdp ft es :=
      mem_sortDesc.mp ((List.take_sublist _ _).subset hc)
    rw [hprice]
    exact (mem_allOptions hmem).2.2.2.2.2.2.2.2.2.2

/-- C3 witness: the concrete scenario provider yields a successful result,
and the theorem's conclusions hold for it. -/
theorem rank_output_sorted_capped_stable_witness :
    fetch_options_data ⟨some 100, some [entryGood]⟩ "TEST" 0.5 0.5 "both" = .ok resGood ∧
    (resGood.options.length ≤ 30 ∧
     resGood.options.Pairwise (fun a b => b.annualReturn ≤ a.annualReturn) ∧
     (∀ v : ℝ, ∃ k, resGood.options.filter (fun c => decide (c.annualReturn = v)) =
       ((allOptions 100 0.5 0.5 "both" [entryGood]).filter
         (fun c => decide (c.annualReturn = v))).take k) ∧
     ∀ c ∈ resGood.options,
       c.annualReturn = c.premium / resGood.price * (365 / (c.days : ℝ)) * 100) :=
  ⟨run_provGood,
   rank_output_sorted_capped_stable 100 [entryGood] "TEST" 0.5 0.5 "both" resGood run_provGood⟩

/-- C4: every contract in a successful result is out of the money: calls
have strike strictly above the spot price, puts strictly below. -/
theorem otm_invariant (p : Provider) (ticker : String) (mdc mdp : ℝ) (ft : String)
    (res : SelectionResult)
    (h : fetch_options_data p ticker mdc mdp ft = .ok res) :
    ∀ c ∈ res.options,
      (c.type = "Call" → res.price < c.strike) ∧
      (c.type = "Put" → c.strike < res.price) := by
  obtain ⟨price, es, _, _, _, hprice, hopts, _, _, _⟩ := run_eq_ok h
  intro c hc
  rw [hopts] at hc
  have hmem : c ∈ allOptions price mdc mdp ft es :=
    mem_sortDesc.mp ((List.take_sublist _ _).subset hc)
  obtain ⟨_, hcall, hput, _⟩ := mem_allOptions hmem
  rw [hprice]
  exact ⟨hcall, hput⟩

/-- C4 witness at the concrete scenario. -/
theorem otm_invariant_witness :
    fetch_options_data provGood "TEST" 0.5 0.5 "both" = .ok resGood ∧
    ∀ c ∈ resGood.options,
      (c.type = "Call" → resGood.price < c.strike) ∧
      (c.type = "Put" → c.strike < resGood.price) :=
  ⟨run_provGood, otm_invariant provGood "TEST" 0.5 0.5 "both" resGood run_provGood⟩

/-- C5: every contract in a successful result satisfies
0 < days_to_expiration ≤ 90 and premium ≥ 0.05 with premium = (bid+ask)/2;
and at the record level the bid/ask entering the premium are the row values
with a missing bid or ask treated as 0 (Option.getD 0). -/
theorem days_premium_invariant (p : Provider) (ticker : String) (mdc mdp : ℝ)
    (ft : String) (res : SelectionResult)
    (h : fetch_options_data p ticker mdc mdp ft = .ok res) :
    (∀ c ∈ res.options,
      0 < c.days ∧ c.days ≤ 90 ∧ 0.05 ≤ c.premium ∧ c.premium = (c.bid + c.ask) / 2) ∧
    (∀ (price mx : ℝ) (d : ℤ) (r : RawRecord) (c : Contract),
      processCall price d mx r = some c →
      c.premium = (r.bid.getD 0 + r.ask.getD 0) / 2) ∧
    (∀ (price mx : ℝ) (d : ℤ) (r : RawRecord) (c : Contract),
      processPut price d mx r = some c →
      c.premium = (r.bid.getD 0 + r.ask.getD 0) / 2) := by
  obtain ⟨price, es, _, _, _, _, hopts, _, _, _⟩ := run_eq_ok h
  refine ⟨?_, ?_, ?_⟩
  · intro c hc
    rw [hopts] at hc
    have hmem : c ∈ allOptions price mdc mdp ft es :=
      mem_sortDesc.mp ((List.take_sublist _ _).subset hc)
    obtain ⟨_, _, _, hd0, hd90, hprem, hfloor, _⟩ := mem_allOptions hmem
    exact ⟨hd0, hd90, not_lt.mp hfloor, hprem⟩
  · intro price mx d r c hr
    obtain ⟨_, _, _, _, hb, ha, hp, _⟩ := processCall_eq_some hr
    rw [hp, hb, ha]
  · intro price mx d r c hr
    obtain ⟨_, _, _, _, hb, ha, hp, _⟩ := processPut_eq_some hr
    rw [hp, hb, ha]

/-- C5 witness at the concrete scenario. -/
theorem days_premium_invariant_witness :
    fetch_options_data provGood "TEST" 0.5 0.5 "both" = .ok resGood ∧
    (∀ c ∈ resGood.options,
      0 < c.days ∧ c.days ≤ 90 ∧ 0.05 ≤ c.premium ∧
      c.premium = (c.bid + c.ask) / 2) ∧
    (cGood.premium = (rcGood.bid.getD 0 + rcGood.ask.getD 0) / 2) :=
  ⟨run_provGood,
   (days_premium_invariant provGood "TEST" 0.5 0.5 "both" resGood run_provGood).1,
   (days_premium_invariant provGood "TEST" 0.5 0.5 "both" resGood run_provGood).2.1
     100 0.5 30 rcGood cGood processCall_rcGood⟩

/-! Section: Congruence helpers for whole-pipeline equalities -/

/-- Two providers with the same price and pointwise-equal filtering results
(and agreeing emptiness of the expiration list) give the same pipeline
result. -/
theorem run_congr {pr : Option ℝ} {es es' : List ExpEntry} {ticker : String}
    {mdc mdp : ℝ} {ft : String}
    (hnil : es = [] ↔ es' = [])
    (hA : ∀ price, allOptions price mdc mdp ft es = allOptions price mdc mdp ft es') :
    fetch_options_data ⟨pr, some es⟩ ticker mdc mdp ft =
    fetch_options_data ⟨pr, some es'⟩ ticker mdc mdp ft := by
  rcases pr with _ | price
  · rfl
  · rcases es with _ | ⟨e, t⟩
    · rcases es' with _ | ⟨e', t'⟩
      · rfl
      · simp at hnil
    · rcases es' with _ | ⟨e', t'⟩
      · simp at hnil
      · rw [fetch_options_data, fetch_options_data]
        dsimp only
        rw [hA price]

theorem flatMap_take_congr {α β : Type _} (f : α → List β) (e e' : α)
    (hf : f e = f e') :
    ∀ (n : ℕ) (es₁ es₂ : List α),
      ((es₁ ++ e :: es₂).take n).flatMap f = ((es₁ ++ e' :: es₂).take n).flatMap f := by
  intro n es₁
  induction es₁ generalizing n with
  | nil =>
    intro es₂
    cases n with
    | zero => rfl
    | succ n => simp [List.take_succ_cons, hf]
  | cons a t ih =>
    intro es₂
    cases n with
    | zero => rfl
    | succ n => simp [List.take_succ_cons, ih n es₂]

/-- A call row whose strike fails to parse contributes nothing: the entry
processes as if the row were absent. -/
theorem processEntry_skip_malformed_call {r : RawRecord} (hr : r.strike = none)
    (price mdc mdp : ℝ) (ft : String) (od : Option ℤ) (l₁ l₂ ps : List RawRecord) :
    processEntry price mdc mdp ft ⟨od, some ⟨l₁ ++ r :: l₂, ps⟩⟩ =
    processEntry price mdc mdp ft ⟨od, some ⟨l₁ ++ l₂, ps⟩⟩ := by
  rcases od with _ | d
  · rfl
  · have hnone : ∀ d' : ℤ, processCall price d' mdc r = none := by
      intro d'; simp [processCall, hr]
    rw [processEntry, processEntry]
    dsimp only
    by_cases h90 : d > 90
    · simp [h90]
    · by_cases h0 : d ≤ 0
      · simp [h90, h0]
      · by_cases hft : ft = "both" ∨ ft = "calls" <;>
          simp [h90, h0, hft, List.filterMap_append, List.filterMap_cons, hnone]

/-- A put row whose strike fails to parse contributes nothing. -/
theorem processEntry_skip_malformed_put {r : RawRecord} (hr : r.strike = none)
    (price mdc mdp : ℝ) (ft : String) (od : Option ℤ) (cs l₁ l₂ : List RawRecord) :
    processEntry price mdc mdp ft ⟨od, some ⟨cs, l₁ ++ r :: l₂⟩⟩ =
    processEntry price mdc mdp ft ⟨od, some ⟨cs, l₁ ++ l₂⟩⟩ := by
  rcases od with _ | d
  · rfl
  · have hnone : ∀ d' : ℤ, processPut price d' mdp r = none := by
      intro d'; simp [processPut, hr]
    rw [processEntry, processEntry]
    dsimp only
    by_cases h90 : d > 90
    · simp [h90]
    · by_cases h0 : d ≤ 0
      · simp [h90, h0]
      · by_cases hft : ft = "both" ∨ ft = "puts" <;>
          simp [h90, h0, hft, List.filterMap_append, List.filterMap_cons, hnone]

/-- With a nonempty expiration list but an empty post-filter set, the
pipeline ends in the no-matching-contracts error carrying both thresholds. -/
theorem run_noMatch_of_allOptions_nil {pr : ℝ} {es : List ExpEntry}
    {ticker : String} {mdc mdp : ℝ} {ft : String} (hes : es ≠ [])
    (hA : allOptions pr mdc mdp ft es = []) :
    fetch_options_data ⟨some pr, some es⟩ ticker mdc mdp ft =
      .error (.noMatchingContracts ticker mdc mdp) := by
  obtain ⟨e, t, rfl⟩ := List.exists_cons_of_ne_nil hes
  rw [fetch_options_data]
  dsimp only
  rw [hA]
  rfl

/-! Section: Claim theorems C9, C8 -/

/-- C9: the pipeline result depends only on the first 15 expirations the
provider lists (expirations[:15]): truncating the list to 15 entries never
changes the outcome, so contracts of the 16th or later expiration never
appear, even when they would pass every filter. -/
theorem only_first_15_expirations (pr : Option ℝ) (es : List ExpEntry)
    (ticker : String) (mdc mdp : ℝ) (ft : String) :
    fetch_options_data ⟨pr, some es⟩ ticker mdc mdp ft =
    fetch_options_data ⟨pr, some (es.take 15)⟩ ticker mdc mdp ft := by
  apply run_congr
  · cases es <;> simp
  · intro price
    rw [allOptions, allOptions, List.take_take, min_self]

def rcBad : RawRecord :=
  { strike := none, bid := some 1, ask := some 1.2,
    delta := none, volume := none, openInterest := none }

/-- C8: the pipeline is total — every run is an ok result or an error value
(the embedding of the function returns (data, None) or (None, error); no
exception escapes) — and a record whose strike fails to parse is skipped
without aborting the batch: the result over a chain containing the bad
record equals the result with that record removed, in the calls list and in
the puts list alike. -/
theorem totality_and_malformed_skip :
    (∀ (p : Provider) (ticker : String) (mdc mdp : ℝ) (ft : String),
      (∃ res, fetch_options_data p ticker mdc mdp ft = .ok res) ∨
      (∃ e, fetch_options_data p ticker mdc mdp ft = .error e)) ∧
    (∀ (pr : Option ℝ) (ticker : String) (mdc mdp : ℝ) (ft : String)
      (es₁ es₂ : List ExpEntry) (od : Option ℤ) (l₁ l₂ ps : List RawRecord)
      (r : RawRecord), r.strike = none →
      fetch_options_data ⟨pr, some (es₁ ++ ⟨od, some ⟨l₁ ++ r :: l₂, ps⟩⟩ :: es₂)⟩
          ticker mdc mdp ft =
      fetch_options_data ⟨pr, some (es₁ ++ ⟨od, some ⟨l₁ ++ l₂, ps⟩⟩ :: es₂)⟩
          ticker mdc mdp ft) ∧
    (∀ (pr : Option ℝ) (ticker : String) (mdc mdp : ℝ) (ft : String)
      (es₁ es₂ : List ExpEntry) (od : Option ℤ) (cs l₁ l₂ : List RawRecord)
      (r : RawRecord), r.strike = none →
      fetch_options_data ⟨pr, some (es₁ ++ ⟨od, some ⟨cs, l₁ ++ r :: l₂⟩⟩ :: es₂)⟩
          ticker mdc mdp ft =
      fetch_options_data ⟨pr, some (es₁ ++ ⟨od, some ⟨cs, l₁ ++ l₂⟩⟩ :: es₂)⟩
          ticker mdc mdp ft) := by
  refine ⟨?_, ?_, ?_⟩
  · intro p ticker mdc mdp ft
    rcases h : fetch_options_data p ticker mdc mdp ft with e | res
    · exact Or.inr ⟨e, rfl⟩
    · exact Or.inl ⟨res, rfl⟩
  · intro pr ticker mdc mdp ft es₁ es₂ od l₁ l₂ ps r hr
    apply run_congr
    · simp
    · intro price
      rw [allOptions, allOptions]
      exact flatMap_take_congr _ _ _
        (processEntry_skip_malformed_call hr price mdc mdp ft od l₁ l₂ ps) 15 es₁ es₂
  · intro pr ticker mdc mdp ft es₁ es₂ od cs l₁ l₂ r hr
    apply run_congr
    · simp
    · intro price
      rw [allOptions, allOptions]
      exact flatMap_take_congr _ _ _
        (processEntry_skip_malformed_put hr price mdc mdp ft od cs l₁ l₂) 15 es₁ es₂

/-- C8 witness: totality at the concrete scenario, and the bad record
rcBad (unparseable strike) inserted in front of the good call row does not
change the result. -/
theorem totality_and_malformed_skip_witness :
    ((∃ res, fetch_options_data provGood "TEST" 0.5 0.5 "both" = .ok res) ∨
     (∃ e, fetch_options_data provGood "TEST" 0.5 0.5 "both" = .error e)) ∧
    rcBad.strike = none ∧
    fetch_options_data ⟨some 100, some ([] ++ ⟨some 30, some ⟨[] ++ rcBad :: [rcGood], []⟩⟩ :: [])⟩
        "TEST" 0.5 0.5 "both" =
    fetch_options_data ⟨some 100, some ([] ++ ⟨some 30, some ⟨[] ++ [rcGood], []⟩⟩ :: [])⟩
        "TEST" 0.5 0.5 "both" :=
  ⟨totality_and_malformed_skip.1 provGood "TEST" 0.5 0.5 "both", rfl,
   totality_and_malformed_skip.2.1 (some 100) "TEST" 0.5 0.5 "both"
     [] [] (some 30) [] [rcGood] [] rcBad rfl⟩

/-! Section: Claim theorems C7, C10 -/

/-- A provider listing one 30-day expiration whose chain holds zero
contracts: zero option contracts overall, yet expirations are nonempty. -/
def provEmptyChain : Provider :=
  { price := some 100, expirations := some [⟨some 30, some ⟨[], []⟩⟩] }

theorem allOptions_provEmptyChain (mdc mdp : ℝ) (ft : String) :
    allOptions 100 mdc mdp ft [⟨some 30, some ⟨[], []⟩⟩] = [] := by
  rw [allOptions]
  simp only [List.take, List.flatMap_cons, List.flatMap_nil, List.append_nil]
  rw [processEntry]
  dsimp only
  rw [if_neg (by norm_num), if_neg (by norm_num)]
  simp

/-- C7 counterexample: the provider returns zero option contracts (one
listed expiration whose chain is empty), but the result is the
no-matching-contracts error, not the no-options-listed error the claim
requires for every zero-contract provider. -/
theorem zero_contracts_not_noOptionsListed_cex :
    fetch_options_data provEmptyChain "TEST" 0.18 0.18 "both" =
      .error (.noMatchingContracts "TEST" 0.18 0.18) ∧
    fetch_options_data provEmptyChain "TEST" 0.18 0.18 "both" ≠
      .error (.noOptionsListed "TEST") := by
  have h : fetch_options_data provEmptyChain "TEST" 0.18 0.18 "both" =
      .error (.noMatchingContracts "TEST" 0.18 0.18) := by
    rw [provEmptyChain]
    exact run_noMatch_of_allOptions_nil (by simp)
      (allOptions_provEmptyChain 0.18 0.18 "both")
  refine ⟨h, ?_⟩
  rw [h]
  intro hcontra
  exact FailureReason.noConfusion (Except.error.inj hcontra)

/-- C7 amended: an empty expiration LIST gives the no-options-listed error;
when expirations are listed but zero contracts survive processing (which
includes the case of chains containing zero contracts), the result is the
no-matching-contracts error carrying the active delta thresholds. -/
theorem failure_reason_dichotomy :
    (∀ (pr : ℝ) (ticker : String) (mdc mdp : ℝ) (ft : String),
      fetch_options_data ⟨some pr, some []⟩ ticker mdc mdp ft =
        .error (.noOptionsListed ticker)) ∧
    (∀ (pr : ℝ) (es : List ExpEntry) (ticker : String) (mdc mdp : ℝ) (ft : String),
      es ≠ [] → allOptions pr mdc mdp ft es = [] →
      fetch_options_data ⟨some pr, some es⟩ ticker mdc mdp ft =
        .error (.noMatchingContracts ticker mdc mdp)) := by
  constructor
  · intro pr ticker mdc mdp ft
    rfl
  · intro pr es ticker mdc mdp ft hes hA
    exact run_noMatch_of_allOptions_nil hes hA

/-- C7 witness: both branches of the dichotomy at concrete providers. -/
theorem failure_reason_dichotomy_witness :
    fetch_options_data ⟨some 100, some []⟩ "TEST" 0.18 0.18 "both" =
      .error (.noOptionsListed "TEST") ∧
    ([⟨some 30, some ⟨[], []⟩⟩] : List ExpEntry) ≠ [] ∧
    allOptions 100 0.18 0.18 "both" [⟨some 30, some ⟨[], []⟩⟩] = [] ∧
    fetch_options_data ⟨some 100, some [⟨some 30, some ⟨[], []⟩⟩]⟩ "TEST" 0.18 0.18 "both" =
      .error (.noMatchingContracts "TEST" 0.18 0.18) :=
  ⟨failure_reason_dichotomy.1 100 "TEST" 0.18 0.18 "both",
   by simp,
   allOptions_provEmptyChain 0.18 0.18 "both",
   failure_reason_dichotomy.2 100 [⟨some 30, some ⟨[], []⟩⟩] "TEST" 0.18 0.18 "both"
     (by simp) (allOptions_provEmptyChain 0.18 0.18 "both")⟩

theorem processEntry_eq_nil_of_unknown_filter {ft : String}
    (hb : ft ≠ "both") (hc : ft ≠ "calls") (hp : ft ≠ "puts")
    (price mdc mdp : ℝ) (e : ExpEntry) :
    processEntry price mdc mdp ft e = [] := by
  rcases e with ⟨_ | d, _ | ch⟩ <;> simp [processEntry, hb, hc, hp]

/-- C10: a filter_type outside both/calls/puts causes neither contract type
to be processed, so (past the provider stages) the pipeline returns the
no-matching-contracts error — no exception and no fallback to 'both'. -/
theorem unknown_filter_type_no_match (ticker : String) (mdc mdp : ℝ) (ft : String)
    (hb : ft ≠ "both") (hc : ft ≠ "calls") (hp : ft ≠ "puts")
    (pr : ℝ) (es : List ExpEntry) (hes : es ≠ []) :
    fetch_options_data ⟨some pr, some es⟩ ticker mdc mdp ft =
      .error (.noMatchingContracts ticker mdc mdp) := by
  apply run_noMatch_of_allOptions_nil hes
  rw [allOptions]
  have hnil : ∀ l : List ExpEntry,
      l.flatMap (processEntry pr mdc mdp ft) = [] := by
    intro l
    induction l with
    | nil => rfl
    | cons a t ih =>
      rw [List.flatMap_cons, ih, processEntry_eq_nil_of_unknown_filter hb hc hp,
        List.nil_append]
  exact hnil _

/-- C10 witness: the typo 'call' on a provider whose chain holds a call row
that passes every other filter still yields the no-matching-contracts
error. -/
theorem unknown_filter_type_no_match_witness :
    ("call" : String) ≠ "both" ∧ ("call" : String) ≠ "calls" ∧
    ("call" : String) ≠ "puts" ∧ ([entryGood] : List ExpEntry) ≠ [] ∧
    fetch_options_data ⟨some 100, some [entryGood]⟩ "TEST" 0.18 0.18 "call" =
      .error (.noMatchingContracts "TEST" 0.18 0.18) :=
  ⟨by decide, by decide, by decide, by simp,
   unknown_filter_type_no_match "TEST" 0.18 0.18 "call"
     (by decide) (by decide) (by decide) 100 [entryGood] (by simp)⟩

/-! Section: Claim theorems C2, C1 -/

/-- A near-the-money call row that carries a provider delta of 0.10. -/
def rcNearMoney : RawRecord :=
  { strike := some 100.5, bid := some 2, ask := some 2.2,
    delta := some 0.1, volume := none, openInterest := none }

theorem estimate_delta_rcNearMoney_gt :
    estimate_delta 100.5 100 30 > 0.18 := by
  rw [estimate_delta, gt_iff_lt]
  apply lt_min (by norm_num)
  have hcast : (((30 : ℤ) : ℝ) / 365) = 30 / 365 := by norm_num
  have habs : |((100.5 : ℝ) - 100) / 100| * 10 = 0.05 := by
    rw [abs_of_nonneg (by norm_num)]
    norm_num
  rw [hcast, habs]
  have hsq : (0.28 : ℝ) < Real.sqrt (30 / 365) :=
    (Real.lt_sqrt (by norm_num)).mpr (by norm_num)
  have hsq0 : (0 : ℝ) < Real.sqrt (30 / 365) := lt_trans (by norm_num) hsq
  have hdiv : (0.05 : ℝ) / Real.sqrt (30 / 365) < 0.05 / 0.28 :=
    div_lt_div_of_pos_left (by norm_num) (by norm_num) hsq
  have hD : (1 : ℝ) + 0.05 / Real.sqrt (30 / 365) < 33 / 28 := by
    have h5 : (0.05 : ℝ) / 0.28 = 5 / 28 := by norm_num
    rw [h5] at hdiv
    linarith
  have hD0 : (0 : ℝ) < 1 + 0.05 / Real.sqrt (30 / 365) := by positivity
  calc (0.18 : ℝ) < 1 / (33 / 28) := by norm_num
    _ < 1 / (1 + 0.05 / Real.sqrt (30 / 365)) := one_div_lt_one_div_of_lt hD0 hD

/-- C2 counterexample: a call row with a present nonzero provider delta of
0.10, well under the 0.18 ceiling — the claim says the provider value is
used for the delta filter, so the contract would be kept — but the code
recomputes delta by the estimator (which saturates at 0.5 near the money)
and drops the contract. -/
theorem provider_delta_used_cex :
    rcNearMoney.delta = some 0.1 ∧ ((0.1 : ℝ) ≤ 0.18) ∧
    processCall 100 30 0.18 rcNearMoney = none := by
  refine ⟨rfl, by norm_num, ?_⟩
  rw [processCall, rcNearMoney]
  simp only [Option.some_bind]
  rw [if_neg (by norm_num), if_neg (by norm_num),
    if_pos estimate_delta_rcNearMoney_gt]

/-- C2 amended: the provider-supplied delta is never consulted — the
processing result is independent of the raw record's delta field, and every
emitted contract's delta is the estimator value for its strike, the spot
and the entry's days_to_expiration. -/
theorem provider_delta_ignored :
    (∀ (price mx : ℝ) (d : ℤ) (r : RawRecord) (v : Option ℝ),
      processCall price d mx { r with delta := v } = processCall price d mx r) ∧
    (∀ (price mx : ℝ) (d : ℤ) (r : RawRecord) (v : Option ℝ),
      processPut price d mx { r with delta := v } = processPut price d mx r) ∧
    (∀ (price mx : ℝ) (d : ℤ) (r : RawRecord) (c : Contract),
      processCall price d mx r = some c → c.delta = estimate_delta c.strike price d) ∧
    (∀ (price mx : ℝ) (d : ℤ) (r : RawRecord) (c : Contract),
      processPut price d mx r = some c → c.delta = estimate_delta c.strike price d) := by
  refine ⟨fun _ _ _ _ _ => rfl, fun _ _ _ _ _ => rfl, ?_, ?_⟩
  · intro price mx d r c h
    exact (processCall_eq_some h).2.2.2.2.2.2.2.2.1
  · intro price mx d r c h
    exact (processPut_eq_some h).2.2.2.2.2.2.2.2.1

/-- C2 amended witness: delta-field independence and the estimator equation
at the concrete call row. -/
theorem provider_delta_ignored_witness :
    processCall 100 30 0.5 { rcGood with delta := some 0.1 } =
      processCall 100 30 0.5 rcGood ∧
    processCall 100 30 0.5 rcGood = some cGood ∧
    cGood.delta = estimate_delta cGood.strike 100 30 :=
  ⟨provider_delta_ignored.1 100 0.5 30 rcGood (some 0.1),
   processCall_rcGood,
   provider_delta_ignored.2.2.1 100 0.5 30 rcGood cGood processCall_rcGood⟩

theorem processCall_mono {price : ℝ} {d : ℤ} {c₁ c₂ : ℝ} (h12 : c₁ ≤ c₂)
    {r : RawRecord} {c : Contract} (h : processCall price d c₁ r = some c) :
    processCall price d c₂ r = some c := by
  rcases Option.bind_eq_some.mp h with ⟨s, hs, hf⟩
  rw [processCall]
  apply Option.bind_eq_some.mpr
  refine ⟨s, hs, ?_⟩
  split_ifs at hf with h1 h2 h3
  rw [if_neg h1, if_neg h2, if_neg (not_lt.mpr (le_trans (not_lt.mp h3) h12))]
  exact hf

theorem processEntry_mono {price mdp : ℝ} {ft : String} {c₁ c₂ : ℝ} (h12 : c₁ ≤ c₂)
    (e : ExpEntry) {c : Contract} (h : c ∈ processEntry price c₁ mdp ft e) :
    c ∈ processEntry price c₂ mdp ft e := by
  rcases e with ⟨_ | d, _ | ch⟩
  · exact absurd h (by simp [processEntry])
  · exact absurd h (by simp [processEntry])
  · exact absurd h (by simp [processEntry])
  · rw [processEntry] at h ⊢
    dsimp only at h ⊢
    by_cases h90 : d > 90
    · rw [if_pos h90] at h
      exact absurd h (by simp)
    · rw [if_neg h90] at h ⊢
      by_cases h0 : d ≤ 0
      · rw [if_pos h0] at h
        exact absurd h (by simp)
      · rw [if_neg h0] at h ⊢
        rcases List.mem_append.mp h with hl | hr
        · apply List.mem_append_left
          by_cases hft : ft = "both" ∨ ft = "calls"
          · rw [if_pos hft] at hl ⊢
            rcases List.mem_filterMap.mp hl with ⟨rr, hrr, hrc⟩
            exact List.mem_filterMap.mpr ⟨rr, hrr, processCall_mono h12 hrc⟩
          · rw [if_neg hft] at hl
            exact absurd hl (by simp)
        · exact List.mem_append_right _ hr

/-- C1 counterexample: the code keeps no cache whatsoever (there is no
module-level store in app.py), so handling a request — first or repeated,
within 300 s or not — always performs the provider trace of fetchTrace:
in the concrete scenario the trace is a fresh history fetch, an expirations
fetch and a chain fetch, never the empty trace the claim requires for the
second request. -/
theorem second_request_refetches_cex :
    fetchTrace provGood =
      [FetchEvent.history, FetchEvent.expirations, FetchEvent.chain] ∧
    fetchTrace provGood ≠ [] := by
  have h : fetchTrace provGood =
      [FetchEvent.history, FetchEvent.expirations, FetchEvent.chain] := by
    rw [provGood, fetchTrace]
    dsimp only
    rw [chainEvents]
    simp [entryGood]
  exact ⟨h, by rw [h]; simp⟩

/-- C1 corrected: fetch_options_data consults no stored state — its provider
trace always begins with a fresh history fetch, for every request — and
re-filtering happens on the freshly fetched data: raising max_delta_calls
(other parameters fixed) only enlarges the pre-truncation candidate list,
so tighter thresholds select a subset of the looser selection computed from
the same provider data. -/
theorem no_cache_refetch_and_refilter :
    (∀ p : Provider, ∃ rest, fetchTrace p = FetchEvent.history :: rest) ∧
    (∀ (price mdp : ℝ) (ft : String) (es : List ExpEntry) (c₁ c₂ : ℝ),
      c₁ ≤ c₂ →
      ∀ c ∈ allOptions price c₁ mdp ft es, c ∈ allOptions price c₂ mdp ft es) := by
  constructor
  · intro p
    rcases p with ⟨_ | price, oes⟩
    · exact ⟨[.history, .history], rfl⟩
    · rcases oes with _ | es
      · exact ⟨[.expirations, .history, .expirations, .history, .expirations], rfl⟩
      · exact ⟨.expirations :: chainEvents es, rfl⟩
  · intro price mdp ft es c₁ c₂ h12 c hc
    rcases List.mem_flatMap.mp hc with ⟨e, he, hce⟩
    exact List.mem_flatMap.mpr ⟨e, he, processEntry_mono h12 e hce⟩

/-- C1 corrected witness: the trace of the concrete scenario starts with a
history fetch, and tightening max_delta_calls from 0.25 to 0.15 on the same
data yields a subset. -/
theorem no_cache_refetch_and_refilter_witness :
    (∃ rest, fetchTrace provGood = FetchEvent.history :: rest) ∧
    ((0.15 : ℝ) ≤ 0.25) ∧
    ∀ c ∈ allOptions 100 0.15 0.5 "both" [entryGood],
      c ∈ allOptions 100 0.25 0.5 "both" [entryGood] :=
  ⟨no_cache_refetch_and_refilter.1 provGood, by norm_num,
   no_cache_refetch_and_refilter.2 100 0.5 "both" [entryGood] 0.15 0.25 (by norm_num)⟩

end OptionsApp

end
